import Mathlib

/-!
Shallow embedding of the `gosheets` Go package (file `gosheets.go`) and
verification of its specification.

The Go client wraps the Google Sheets remote API.  We embed:

* the pure tabular helpers (`columnIndex`, `findRowNumber`, `DataToString`)
  directly from their Go source;
* the client operations (`ReadData`, `AppendData`, `InsertRowsAfterPosition`,
  `InsertRowsAtBeginning`, `DeleteRow`, the internal `getSheetID` and
  `validateClientFields`) as functions from a client value and a remote-service
  oracle to a result together with the list of remote requests issued, in the
  order the Go code issues them;
* the remote collaborator's structural row semantics (insert/delete/overwrite
  of grid rows), which live in Google's service and not in this repository,
  as list transformers modelled from the spec.

Go `interface{}` cell values are modelled by a closed sum of the shapes the
spec's data model names (string, number, boolean, empty); `fmt.Sprintf with the
v verb` becomes `sprintv`.
-/

set_option maxRecDepth 8192

namespace GoSheets

/-- A weakly-typed cell value (Go `interface\x7b\x7d`); the spec's data model
restricts cells to string, number, boolean or empty. -/
inductive Cell where
  | str (s : String)
  | int (n : Int)
  | bool (b : Bool)
  | empty
deriving DecidableEq, Repr

/-- Go default rendering `fmt.Sprintf` with verb `v` on the cell shapes above:
a string renders as itself, an integer in decimal, a boolean as `true`/`false`,
an empty cell as the empty string. -/
def sprintv : Cell → String
  | .str s => s
  | .int n => toString n
  | .bool b => if b then "true" else "false"
  | .empty => ""

/-- Go `strings.ToUpper` restricted to one character, on the ASCII range
(the only range the column-reference contract allows): maps `a`–`z`
(codepoints 97–122) to `A`–`Z` by subtracting 32, leaves everything else. -/
def toUpperChar (c : Char) : Char :=
  if 97 ≤ c.toNat ∧ c.toNat ≤ 122 then Char.ofNat (c.toNat - 32) else c

/-- Go `strings.ToUpper` on a whole string (ASCII range). -/
def toUpper (s : String) : String :=
  ⟨s.data.map toUpperChar⟩

/-- Two's-complement normalisation into 64 bits: Go's `int`/`int64`
arithmetic wraps on overflow (the Go spec defines signed overflow as
wraparound), and this maps an exact integer to the value the 64-bit machine
word holds.  It is the identity on `[-2^63, 2^63)`. -/
def wrap64 (n : Int) : Int :=
  (n + 9223372036854775808) % 18446744073709551616 - 9223372036854775808

/-- Embeds Go `columnIndex` (gosheets.go lines 294–301): uppercase the input,
fold `index = index*26 + int(c-character A) + 1` over its runes in Go's
wrapping 64-bit `int` arithmetic, then return `index - 1` (also wrapping).
The rune subtraction itself cannot overflow `int32` for any Unicode scalar
value, so it is exact; the accumulator wraps once the bijective value
reaches `2^63` (possible from 14 letters on). -/
def columnIndex (column : String) : Int :=
  wrap64 ((toUpper column).data.foldl
    (fun index c => wrap64 (index * 26 + ((c.toNat : Int) - 65) + 1)) 0 - 1)

/-- Go slice indexing `row[i]` with an `int` index: `some` the element when
`0 ≤ i < len(row)`, `none` models the runtime panic on a negative or
out-of-range index. -/
def goIndex (row : List Cell) (i : Int) : Option Cell :=
  if h : 0 ≤ i ∧ i.toNat < row.length then some (row.get ⟨i.toNat, h.2⟩) else none

/-- Loop body of Go `findRowNumber` (gosheets.go lines 275–285), carrying the
0-based index `i` of the current row and returning `i + 1` on a match.  The
guard compares against `columnIndex(column)+1` computed in wrapping `int`
arithmetic; the loop counter and row lengths stay far below `2^63` and are
exact.  `none` models a panic from `row[columnIndex(column)]` (it occurs when
the guard passes yet the index is negative: non-letter input, or a letter
code long enough that the wrapped index goes negative). -/
def findRowNumberFrom (column value : String) : List (List Cell) → Int → Option Int
  | [], _ => some (-1)
  | row :: rest, i =>
    if (row.length : Int) < wrap64 (columnIndex column + 1) then
      findRowNumberFrom column value rest (i + 1)
    else
      match goIndex row (columnIndex column) with
      | none => none
      | some cell =>
        if sprintv cell = value then some (i + 1)
        else findRowNumberFrom column value rest (i + 1)

/-- Embeds Go `findRowNumber`: first row (1-based) whose cell in `column`
renders to `value`; `some (-1)` when none does; `none` models a panic. -/
def findRowNumber (data : List (List Cell)) (column value : String) : Option Int :=
  findRowNumberFrom column value data 0

/-- Embeds Go `DataToString` (gosheets.go lines 253–264): a `strings.Builder`
fold writing every cell followed by a tab, then a newline per row. -/
def DataToString (data : List (List Cell)) : String :=
  data.foldl
    (fun result row =>
      (row.foldl (fun result cell => result ++ sprintv cell ++ "\t") result) ++ "\n")
    ""

/-! ### Specification-side definitions (from the spec's words, for comparison) -/

/-- The character is an ASCII uppercase letter `A`–`Z`. -/
def isUpperLetter (c : Char) : Prop := 65 ≤ c.toNat ∧ c.toNat ≤ 90

/-- The character is an ASCII letter `A`–`Z` or `a`–`z`. -/
def isLetter (c : Char) : Prop :=
  (65 ≤ c.toNat ∧ c.toNat ≤ 90) ∨ (97 ≤ c.toNat ∧ c.toNat ≤ 122)

instance (c : Char) : Decidable (isUpperLetter c) := by unfold isUpperLetter; infer_instance

instance (c : Char) : Decidable (isLetter c) := by unfold isLetter; infer_instance

/-- Every character of the string is a letter. -/
def lettersOnly (s : String) : Prop := ∀ c ∈ s.data, isLetter c

/-- Every character of the string is an uppercase letter. -/
def upperOnly (s : String) : Prop := ∀ c ∈ s.data, isUpperLetter c

instance (s : String) : Decidable (lettersOnly s) := by
  unfold lettersOnly; exact List.decidableBAll _ s.data

instance (s : String) : Decidable (upperOnly s) := by
  unfold upperOnly; exact List.decidableBAll _ s.data

/-- The bijective base-26 digit of an uppercase letter: `A` is 1, …, `Z` is 26
(no digit represents zero). -/
def letterDigit (c : Char) : Nat := c.toNat - 64

/-- Bijective base-26 value of a digit list (spec: "standard bijective base-26
conversion, no digit represents zero"). -/
def bijBase26 (digits : List Nat) : Nat :=
  digits.foldl (fun acc d => acc * 26 + d) 0

/-- The bijective base-26 value of an uppercase letter string. -/
def bijValue (s : String) : Nat := bijBase26 (s.data.map letterDigit)

/-! ### The client, its errors, and the remote collaborator -/

/-- Error taxonomy of the spec (§7), attached to the Go error strings.
`fmt.Errorf` wrapping keeps the class of the root cause and prefixes context. -/
inductive GSError where
  | configurationError (msg : String)
  | notFoundError (msg : String)
  | remoteError (msg : String)
deriving DecidableEq, Repr

/-- Wrapping an error with context (`fmt.Errorf` with a cause):
the class of the root cause is preserved, the message gains a prefix. -/
def wrapErr (ctx : String) : GSError → GSError
  | .configurationError msg => .configurationError (ctx ++ msg)
  | .notFoundError msg => .notFoundError (ctx ++ msg)
  | .remoteError msg => .remoteError (ctx ++ msg)

/-- The error is in the `ConfigurationError` class. -/
def GSError.isConfiguration : GSError → Bool
  | .configurationError _ => true
  | _ => false

/-- The error is in the `NotFoundError` class. -/
def GSError.isNotFound : GSError → Bool
  | .notFoundError _ => true
  | _ => false

/-- One request in a batch update (`sheets.Request`): the two shapes this
client builds. -/
inductive BatchRequest where
  | insertDimension (sheetId : Int) (dimension : String)
      (startIndex endIndex : Int) (inheritFromBefore : Bool)
  | deleteDimension (sheetId : Int) (dimension : String)
      (startIndex endIndex : Int)
deriving DecidableEq, Repr

/-- A remote call issued by the client, with the arguments the Go code passes
to the Google Sheets service. -/
inductive Request where
  | getSpreadsheet (spreadsheetID : String)
  | valuesGet (spreadsheetID range : String)
  | valuesAppend (spreadsheetID range : String) (values : List (List Cell))
  | batchUpdate (spreadsheetID : String) (requests : List BatchRequest)
deriving DecidableEq, Repr

/-- The remote collaborator's visible behaviour, as response functions: a
metadata fetch yields the sheets' titles and numeric ids, the value calls
succeed or fail with a message.  The collaborator is outside this repository;
operations are proved for arbitrary oracles or, when a claim needs the happy
path, under hypotheses naming the responses. -/
structure Remote where
  getSpreadsheet : String → Except String (List (String × Int))
  valuesGet : String → String → Except String (List (List Cell))
  valuesAppend : String → String → List (List Cell) → Except String Unit
  batchUpdate : String → List BatchRequest → Except String Unit

/-- The client's session state (`GoogleSheetsClient` without the service
handle, which is the remote oracle passed separately). -/
structure Client where
  spreadsheetID : String
  sheetName : String
deriving DecidableEq, Repr

/-- Result of an operation together with the remote requests it issued,
in order. -/
abbrev Outcome (α : Type) := Except GSError α × List Request

/-- Embeds Go `validateClientFields` (gosheets.go lines 303–313). -/
def validateClientFields (gs : Client) : Except GSError Unit :=
  if gs.spreadsheetID = "" then
    .error (.configurationError "spreadsheet ID not set")
  else if gs.sheetName = "" then
    .error (.configurationError "sheet name not set")
  else
    .ok ()

/-- Linear scan of the spreadsheet metadata for a title equal to the sheet
name (loop of Go `getSheetID`). -/
def findSheet (sheets : List (String × Int)) (name : String) : Option Int :=
  match sheets with
  | [] => none
  | (title, sid) :: rest => if title = name then some sid else findSheet rest name

/-- Embeds Go `getSheetID` (gosheets.go lines 72–90): validate, fetch the
spreadsheet metadata, scan for the configured sheet name. -/
def getSheetID (gs : Client) (remote : Remote) : Outcome Int :=
  match validateClientFields gs with
  | .error e => (.error e, [])
  | .ok _ =>
    match remote.getSpreadsheet gs.spreadsheetID with
    | .error msg =>
        (.error (.remoteError ("unable to retrieve spreadsheet: " ++ msg)),
         [.getSpreadsheet gs.spreadsheetID])
    | .ok sheets =>
        match findSheet sheets gs.sheetName with
        | some sid => (.ok sid, [.getSpreadsheet gs.spreadsheetID])
        | none =>
            (.error (.notFoundError
               ("sheet with name " ++ gs.sheetName ++ " not found")),
             [.getSpreadsheet gs.spreadsheetID])

/-- Embeds Go `ReadData` (gosheets.go lines 99–112). -/
def ReadData (gs : Client) (remote : Remote) (readRange : String) :
    Outcome (List (List Cell)) :=
  match validateClientFields gs with
  | .error e => (.error e, [])
  | .ok _ =>
    let range := gs.sheetName ++ "!" ++ readRange
    match remote.valuesGet gs.spreadsheetID range with
    | .error msg =>
        (.error (.remoteError ("unable to retrieve data from Google Sheets: " ++ msg)),
         [.valuesGet gs.spreadsheetID range])
    | .ok vals => (.ok vals, [.valuesGet gs.spreadsheetID range])

/-- Embeds Go `AppendData` (gosheets.go lines 123–139): validate the client
fields, compose the range, issue the append with the RAW value option.
The anchor argument itself is not validated. -/
def AppendData (gs : Client) (remote : Remote) (data : List (List Cell))
    (range_ : String) : Outcome Unit :=
  match validateClientFields gs with
  | .error e => (.error e, [])
  | .ok _ =>
    let range := gs.sheetName ++ "!" ++ range_
    match remote.valuesAppend gs.spreadsheetID range data with
    | .error msg =>
        (.error (.remoteError ("unable to add data to Google Sheets: " ++ msg)),
         [.valuesAppend gs.spreadsheetID range data])
    | .ok _ => (.ok (), [.valuesAppend gs.spreadsheetID range data])

/-- Embeds Go `InsertRowsAfterPosition` (gosheets.go lines 149–184):
resolve the sheet id, batch-insert `len(data)` blank rows at 0-based offsets
`position` to `position+len(data)` (the end index computed in Go's wrapping
`int64` arithmetic) without inheriting formatting, then append `data`
anchored at cell `A<position>`. -/
def InsertRowsAfterPosition (gs : Client) (remote : Remote)
    (data : List (List Cell)) (position : Int) : Outcome Unit :=
  match getSheetID gs remote with
  | (.error e, tr) => (.error (wrapErr "unable to retrieve sheet ID: " e), tr)
  | (.ok sheetID, tr) =>
    let numRows : Int := data.length
    let insertReq : BatchRequest :=
      .insertDimension sheetID "ROWS" position (wrap64 (position + numRows)) false
    match remote.batchUpdate gs.spreadsheetID [insertReq] with
    | .error msg =>
        (.error (.remoteError ("unable to insert rows at position: " ++ msg)),
         tr ++ [.batchUpdate gs.spreadsheetID [insertReq]])
    | .ok _ =>
      match AppendData gs remote data ("A" ++ toString position) with
      | (.error e, tr2) =>
          (.error (wrapErr "unable to append data to Google Sheets: " e),
           tr ++ [.batchUpdate gs.spreadsheetID [insertReq]] ++ tr2)
      | (.ok _, tr2) =>
          (.ok (), tr ++ [.batchUpdate gs.spreadsheetID [insertReq]] ++ tr2)

/-- Embeds Go `InsertRowsAtBeginning` (gosheets.go lines 193–200):
delegate to `InsertRowsAfterPosition` at position 1, wrapping any error. -/
def InsertRowsAtBeginning (gs : Client) (remote : Remote)
    (data : List (List Cell)) : Outcome Unit :=
  match InsertRowsAfterPosition gs remote data 1 with
  | (.error e, tr) => (.error (wrapErr "unable to insert rows at beginning: " e), tr)
  | (.ok _, tr) => (.ok (), tr)

/-- Embeds Go `DeleteRow` (gosheets.go lines 211–244): scan the
caller-supplied data first, then resolve the sheet id and issue a one-row
structural delete.  The `rowIndex - 1` arithmetic is exact: a returned row
index is bounded by the slice length, far below `2^63`, so the wrapping
conversion to `int64` is the identity.  `none` propagates the panic
`findRowNumber` can raise (non-letter column input, or a letter code whose
wrapped index is negative). -/
def DeleteRow (gs : Client) (remote : Remote) (data : List (List Cell))
    (column value : String) : Option (Outcome Unit) :=
  match findRowNumber data column value with
  | none => none
  | some rowIndex =>
    if rowIndex = -1 then
      some (.error (.notFoundError
              ("unable to find the value " ++ value ++ " in column " ++ column)), [])
    else
      match getSheetID gs remote with
      | (.error e, tr) =>
          some (.error (wrapErr "unable to retrieve sheet ID: " e), tr)
      | (.ok sheetID, tr) =>
        let req : BatchRequest := .deleteDimension sheetID "ROWS" (rowIndex - 1) rowIndex
        match remote.batchUpdate gs.spreadsheetID [req] with
        | .error msg =>
            some (.error (.remoteError ("unable to delete row from Google Sheets: " ++ msg)),
                  tr ++ [.batchUpdate gs.spreadsheetID [req]])
        | .ok _ => some (.ok (), tr ++ [.batchUpdate gs.spreadsheetID [req]])

/-! ### Modelled remote row semantics

The structural effect of the requests on the sheet grid is implemented by the
remote collaborator, not by this repository; the spec describes it (glossary
"Structural insert/delete", §4.4, §4.5, §4.7), and the following transformers
are modelled from those words so that effect claims can be stated. -/

/-- Modelled from the spec (glossary): a structural delete of rows at 0-based
offsets `start` to `stop` (exclusive) shifts later rows up to close the gap. -/
def applyDeleteRows (sheet : List (List Cell)) (start stop : Nat) :
    List (List Cell) :=
  sheet.take start ++ sheet.drop stop

/-- Modelled from the spec (glossary, §4.5): a structural insert of `n` blank
rows at 0-based offset `start` shifts the rows from `start` on down by `n`. -/
def applyInsertRows (sheet : List (List Cell)) (start n : Nat) :
    List (List Cell) :=
  sheet.take start ++ List.replicate n [] ++ sheet.drop start

/-- Modelled from the spec (§4.4, §4.5 step 3): writing appended rows into the
grid starting at 0-based row offset `start` (1-based row `start + 1`),
overwriting what stood there. -/
def writeRowsAt (sheet : List (List Cell)) (start : Nat)
    (data : List (List Cell)) : List (List Cell) :=
  sheet.take start ++ data ++ sheet.drop (start + data.length)

/-- A column reference the program converts exactly: nonempty, letters only
(the spec's base-26 letter codes `A`, `B`, …, `Z`, `AA`, …,
case-insensitively), and at most 13 letters, so that the bijective value
stays below `2^63` and Go's 64-bit accumulator never wraps (a 14-letter code
can wrap to a negative index). -/
def validColumn (s : String) : Prop :=
  s.data ≠ [] ∧ lettersOnly s ∧ s.data.length ≤ 13

instance (s : String) : Decidable (validColumn s) := by
  unfold validColumn; infer_instance

/-- Spec-side matching of one row (§4.9): the row is long enough to have a
cell at 0-based index `idx` and that cell's default rendering equals `value`
exactly; shorter rows never match. -/
def rowMatches (row : List Cell) (idx : Nat) (value : String) : Bool :=
  decide (idx < row.length) && decide (sprintv (row.getD idx Cell.empty) = value)

/-- Spec-side rendering of one row (§4.8): the cells' renderings each followed
by the tab separator (a trailing separator after the last cell). -/
def rowText (row : List Cell) : String :=
  String.join (row.map (fun cell => sprintv cell ++ "\t"))

/-- Spec-side rendering of tabular data (§4.8): every row's text terminated by
a line break, concatenated; no padding across rows of different length. -/
def dataText (data : List (List Cell)) : String :=
  String.join (data.map (fun row => rowText row ++ "\n"))

/-- A concrete remote oracle used to instantiate theorems: a single sheet
named `Sheet1` with numeric id 7, an empty grid, and every call accepted. -/
def stubRemote : Remote where
  getSpreadsheet := fun _ => .ok [("Sheet1", 7)]
  valuesGet := fun _ _ => .ok []
  valuesAppend := fun _ _ _ => .ok ()
  batchUpdate := fun _ _ => .ok ()

/-- A configured client for concrete instantiations. -/
def demoClient : Client := ⟨"spreadsheet-id", "Sheet1"⟩

/-- A client with neither field set, for concrete instantiations. -/
def blankClient : Client := ⟨"", ""⟩

/-! ### Lemmas about `columnIndex` (bijective base-26) -/

theorem bijBase26_nil : bijBase26 [] = 0 := rfl

theorem bijBase26_append (l : List Nat) (d : Nat) :
    bijBase26 (l ++ [d]) = 26 * bijBase26 l + d := by
  simp [bijBase26, List.foldl_append, Nat.mul_comm]

theorem bijBase26_pos (l : List Nat) (hd : ∀ d ∈ l, 1 ≤ d) (hne : l ≠ []) :
    1 ≤ bijBase26 l := by
  rcases l.eq_nil_or_concat' with rfl | ⟨m, d, rfl⟩
  · cases hne rfl
  · rw [bijBase26_append]
    have h1 : 1 ≤ d := hd d (by simp)
    omega

theorem bijBase26_inj (l : List Nat) : ∀ m : List Nat,
    (∀ d ∈ l, 1 ≤ d ∧ d ≤ 26) → (∀ d ∈ m, 1 ≤ d ∧ d ≤ 26) →
    bijBase26 l = bijBase26 m → l = m := by
  induction l using List.reverseRecOn with
  | nil =>
    intro m _ hm heq
    rcases m.eq_nil_or_concat' with rfl | ⟨m', d', rfl⟩
    · rfl
    · exfalso
      rw [bijBase26_nil, bijBase26_append] at heq
      have h1 : 1 ≤ d' := (hm d' (by simp)).1
      omega
  | append_singleton l d ih =>
    intro m hl hm heq
    rcases m.eq_nil_or_concat' with rfl | ⟨m', d', rfl⟩
    · exfalso
      rw [bijBase26_nil, bijBase26_append] at heq
      have h1 : 1 ≤ d := (hl d (by simp)).1
      omega
    · rw [bijBase26_append, bijBase26_append] at heq
      have hd : 1 ≤ d ∧ d ≤ 26 := hl d (by simp)
      have hd' : 1 ≤ d' ∧ d' ≤ 26 := hm d' (by simp)
      have hsplit : bijBase26 l = bijBase26 m' ∧ d = d' := by omega
      rw [ih m' (fun x hx => hl x (by simp [hx])) (fun x hx => hm x (by simp [hx]))
            hsplit.1,
          hsplit.2]

theorem char_toNat_inj {c d : Char} (h : c.toNat = d.toNat) : c = d := by
  have h2 := congrArg Char.ofNat h
  rwa [Char.ofNat_toNat, Char.ofNat_toNat] at h2

theorem letterDigit_bounds {c : Char} (h : isUpperLetter c) :
    1 ≤ letterDigit c ∧ letterDigit c ≤ 26 := by
  rcases h with ⟨h1, h2⟩
  unfold letterDigit
  omega

theorem letterDigit_inj {c d : Char} (hc : isUpperLetter c) (hd : isUpperLetter d)
    (h : letterDigit c = letterDigit d) : c = d := by
  rcases hc with ⟨hc1, _⟩
  rcases hd with ⟨hd1, _⟩
  apply char_toNat_inj
  unfold letterDigit at h
  omega

theorem char_toNat_ofNat_valid {n : Nat} (h : n < 55296) :
    (Char.ofNat n).toNat = n := by
  rw [Char.ofNat, dif_pos (Or.inl h : Nat.isValidChar n)]
  rfl

theorem toUpperChar_upper {c : Char} (h : isLetter c) :
    isUpperLetter (toUpperChar c) := by
  unfold toUpperChar
  rcases h with ⟨h1, h2⟩ | ⟨h1, h2⟩
  · rw [if_neg (by omega)]
    exact ⟨h1, h2⟩
  · rw [if_pos ⟨h1, h2⟩]
    have he : (Char.ofNat (c.toNat - 32)).toNat = c.toNat - 32 :=
      char_toNat_ofNat_valid (by omega)
    unfold isUpperLetter
    rw [he]
    omega

theorem toUpperChar_id {c : Char} (h : isUpperLetter c) : toUpperChar c = c := by
  rcases h with ⟨_, h2⟩
  unfold toUpperChar
  rw [if_neg (by omega)]

theorem string_data_mk (l : List Char) : (String.mk l).data = l := rfl

theorem upperOnly_toUpper {s : String} (h : lettersOnly s) :
    upperOnly (toUpper s) := by
  intro c hc
  unfold toUpper at hc
  rw [string_data_mk] at hc
  obtain ⟨a, ha, rfl⟩ := List.mem_map.mp hc
  exact toUpperChar_upper (h a ha)

theorem map_toUpperChar_id {l : List Char} (h : ∀ c ∈ l, isUpperLetter c) :
    l.map toUpperChar = l := by
  induction l with
  | nil => rfl
  | cons c l ih =>
    rw [List.map_cons, toUpperChar_id (h c (by simp)),
        ih (fun x hx => h x (by simp [hx]))]

theorem toUpper_eq_self {s : String} (h : upperOnly s) : toUpper s = s := by
  unfold toUpper
  rw [map_toUpperChar_id h]

theorem toUpper_idem {s : String} (h : lettersOnly s) :
    toUpper (toUpper s) = toUpper s := by
  apply toUpper_eq_self
  exact upperOnly_toUpper h

theorem wrap64_eq_self {n : Int} (h1 : -9223372036854775808 ≤ n)
    (h2 : n < 9223372036854775808) : wrap64 n = n := by
  unfold wrap64
  omega

theorem natFold_ge (l : List Char) : ∀ acc : Nat,
    acc ≤ l.foldl (fun a c => a * 26 + letterDigit c) acc := by
  induction l with
  | nil => intro acc; exact Nat.le_refl acc
  | cons c l ih =>
    intro acc
    exact Nat.le_trans (by omega) (ih (acc * 26 + letterDigit c))

theorem bijBase26_bound (l : List Nat) (h : ∀ d ∈ l, d ≤ 26) :
    25 * bijBase26 l + 26 ≤ 26 ^ (l.length + 1) := by
  induction l using List.reverseRecOn with
  | nil => simp [bijBase26_nil]
  | append_singleton l d ih =>
    rw [bijBase26_append]
    have hd : d ≤ 26 := h d (by simp)
    have ih2 := ih (fun x hx => h x (by simp [hx]))
    have hp : (26 : Nat) ^ ((l ++ [d]).length + 1) = 26 * 26 ^ (l.length + 1) := by
      simp only [List.length_append, List.length_cons, List.length_nil]
      ring
    omega

theorem bijValue_lt {s : String} (h : upperOnly s) (hlen : s.data.length ≤ 13) :
    bijValue s < 9223372036854775808 := by
  have hb := bijBase26_bound (s.data.map letterDigit) (by
    intro d hd
    obtain ⟨c, hc, rfl⟩ := List.mem_map.mp hd
    exact (letterDigit_bounds (h c hc)).2)
  have hlen2 : (s.data.map letterDigit).length + 1 ≤ 14 := by
    rw [List.length_map]
    omega
  have hpow : (26 : Nat) ^ ((s.data.map letterDigit).length + 1) ≤ 26 ^ 14 :=
    Nat.pow_le_pow_right (by norm_num) hlen2
  have h26 : (26 : Nat) ^ 14 = 64509974703297150976 := by norm_num
  unfold bijValue
  omega

theorem foldl_wrap_eq_nat (l : List Char) (h : ∀ c ∈ l, isUpperLetter c) :
    ∀ acc : Nat,
      l.foldl (fun a c => a * 26 + letterDigit c) acc < 9223372036854775808 →
      l.foldl (fun index c => wrap64 (index * 26 + ((c.toNat : Int) - 65) + 1))
          (acc : Int) =
        ((l.foldl (fun a c => a * 26 + letterDigit c) acc : Nat) : Int) := by
  induction l with
  | nil => intro acc _; rfl
  | cons c l ih =>
    intro acc hb
    have hc : 65 ≤ c.toNat := (h c (by simp)).1
    have hl : ∀ x ∈ l, isUpperLetter x := fun x hx => h x (by simp [hx])
    simp only [List.foldl_cons] at hb ⊢
    have hle : acc * 26 + letterDigit c ≤
        l.foldl (fun a c => a * 26 + letterDigit c) (acc * 26 + letterDigit c) :=
      natFold_ge l (acc * 26 + letterDigit c)
    have hcast : (acc : Int) * 26 + ((c.toNat : Int) - 65) + 1 =
        ((acc * 26 + letterDigit c : Nat) : Int) := by
      unfold letterDigit
      omega
    have hstep : wrap64 ((acc : Int) * 26 + ((c.toNat : Int) - 65) + 1) =
        ((acc * 26 + letterDigit c : Nat) : Int) := by
      rw [hcast]
      exact wrap64_eq_self (by omega) (by omega)
    rw [hstep, ih hl (acc * 26 + letterDigit c) hb]

theorem columnIndex_eq_bijValue {s : String} (h : lettersOnly s)
    (hlen : s.data.length ≤ 13) :
    columnIndex s = (bijValue (toUpper s) : Int) - 1 := by
  have hup : upperOnly (toUpper s) := upperOnly_toUpper h
  have hlen2 : (toUpper s).data.length ≤ 13 := by
    unfold toUpper
    rw [string_data_mk, List.length_map]
    exact hlen
  have hlt : bijValue (toUpper s) < 9223372036854775808 := bijValue_lt hup hlen2
  have hfold : bijValue (toUpper s) =
      (toUpper s).data.foldl (fun a c => a * 26 + letterDigit c) 0 := by
    unfold bijValue bijBase26
    rw [List.foldl_map]
  have hw := foldl_wrap_eq_nat (toUpper s).data hup 0 (by rw [← hfold]; exact hlt)
  rw [show ((0 : Nat) : Int) = 0 from rfl] at hw
  unfold columnIndex
  rw [hw, ← hfold]
  exact wrap64_eq_self (by omega) (by omega)

theorem columnIndex_bounds {s : String} (h : validColumn s) :
    0 ≤ columnIndex s ∧ columnIndex s + 1 < 9223372036854775808 := by
  obtain ⟨hne, hl, hlen⟩ := h
  rw [columnIndex_eq_bijValue hl hlen]
  have hpos : 1 ≤ bijValue (toUpper s) := by
    unfold bijValue
    apply bijBase26_pos
    · intro d hd
      obtain ⟨c, hc, rfl⟩ := List.mem_map.mp hd
      exact (letterDigit_bounds (upperOnly_toUpper hl c hc)).1
    · intro hcontra
      apply hne
      have h0 : (toUpper s).data = [] := by
        by_contra hne2
        rw [List.map_eq_nil_iff] at hcontra
        exact hne2 hcontra
      unfold toUpper at h0
      rw [string_data_mk, List.map_eq_nil_iff] at h0
      exact h0
  have hlt : bijValue (toUpper s) < 9223372036854775808 := by
    apply bijValue_lt (upperOnly_toUpper hl)
    unfold toUpper
    rw [string_data_mk, List.length_map]
    exact hlen
  omega

theorem map_letterDigit_inj : ∀ (l m : List Char),
    (∀ c ∈ l, isUpperLetter c) → (∀ c ∈ m, isUpperLetter c) →
    l.map letterDigit = m.map letterDigit → l = m
  | [], [], _, _, _ => rfl
  | [], _ :: _, _, _, h => by simp at h
  | _ :: _, [], _, _, h => by simp at h
  | c :: l, d :: m, hl, hm, h => by
    simp only [List.map_cons, List.cons.injEq] at h
    rw [letterDigit_inj (hl c (by simp)) (hm d (by simp)) h.1,
        map_letterDigit_inj l m (fun x hx => hl x (by simp [hx]))
          (fun x hx => hm x (by simp [hx])) h.2]

theorem findRowNumberFrom_nil (column value : String) (i : Int) :
    findRowNumberFrom column value [] i = some (-1) := rfl

theorem findRowNumberFrom_cons_short {column value : String} {row : List Cell}
    (rest : List (List Cell)) (i : Int)
    (h : (row.length : Int) < wrap64 (columnIndex column + 1)) :
    findRowNumberFrom column value (row :: rest) i =
      findRowNumberFrom column value rest (i + 1) := by
  conv_lhs => rw [findRowNumberFrom]
  rw [if_pos h]

theorem findRowNumberFrom_cons_long {column value : String} {row : List Cell}
    (rest : List (List Cell)) (i : Int)
    (h : ¬ (row.length : Int) < wrap64 (columnIndex column + 1)) :
    findRowNumberFrom column value (row :: rest) i =
      match goIndex row (columnIndex column) with
      | none => none
      | some cell =>
        if sprintv cell = value then some (i + 1)
        else findRowNumberFrom column value rest (i + 1) := by
  conv_lhs => rw [findRowNumberFrom]
  rw [if_neg h]

theorem findRowNumberFrom_eq (column value : String)
    (hnn : 0 ≤ columnIndex column)
    (hub : columnIndex column + 1 < 9223372036854775808)
    (data : List (List Cell)) : ∀ i : Int,
    findRowNumberFrom column value data i =
      some (match data.findIdx?
              (fun row => rowMatches row (columnIndex column).toNat value) with
            | some k => i + (k : Int) + 1
            | none => -1) := by
  have hw : wrap64 (columnIndex column + 1) = columnIndex column + 1 :=
    wrap64_eq_self (by omega) hub
  induction data with
  | nil => intro i; rfl
  | cons row rest ih =>
    intro i
    by_cases hlen : (row.length : Int) < columnIndex column + 1
    · have hm : rowMatches row (columnIndex column).toNat value = false := by
        unfold rowMatches
        have hx : ¬ (columnIndex column).toNat < row.length := by omega
        simp [hx]
      rw [findRowNumberFrom_cons_short rest i (by rw [hw]; exact hlen), ih (i + 1)]
      cases hfi : rest.findIdx?
          (fun row => rowMatches row (columnIndex column).toNat value) with
      | none => simp [List.findIdx?_cons, hm, List.findIdx?_succ, hfi]
      | some k =>
        simp only [List.findIdx?_cons, hm, List.findIdx?_succ, hfi,
          Bool.false_eq_true, if_false, Option.map_some', Option.some.injEq]
        push_cast
        ring
    · have hidx : (columnIndex column).toNat < row.length := by omega
      have hgo : goIndex row (columnIndex column) =
          some (row.get ⟨(columnIndex column).toNat, hidx⟩) := by
        unfold goIndex
        rw [dif_pos ⟨hnn, hidx⟩]
      have hget : row.getD (columnIndex column).toNat Cell.empty =
          row.get ⟨(columnIndex column).toNat, hidx⟩ := by
        simp [List.getD_eq_getElem?_getD, List.getElem?_eq_getElem hidx]
      by_cases hv : sprintv (row.get ⟨(columnIndex column).toNat, hidx⟩) = value
      · have hm : rowMatches row (columnIndex column).toNat value = true := by
          unfold rowMatches
          rw [hget]
          simp [hidx, hv]
          exact hv
        have hL : findRowNumberFrom column value (row :: rest) i = some (i + 1) := by
          rw [findRowNumberFrom_cons_long rest i (by rw [hw]; exact hlen), hgo]
          exact if_pos hv
        have hR : (row :: rest).findIdx?
            (fun row => rowMatches row (columnIndex column).toNat value) = some 0 := by
          rw [List.findIdx?_cons]
          simp [hm]
        rw [hL, hR]
        simp
      · have hm : rowMatches row (columnIndex column).toNat value = false := by
          unfold rowMatches
          rw [hget]
          simp [hv]
          exact fun _ => hv
        have hL : findRowNumberFrom column value (row :: rest) i =
            findRowNumberFrom column value rest (i + 1) := by
          rw [findRowNumberFrom_cons_long rest i (by rw [hw]; exact hlen), hgo]
          exact if_neg hv
        rw [hL, ih (i + 1)]
        cases hfi : rest.findIdx?
            (fun row => rowMatches row (columnIndex column).toNat value) with
        | none => simp [List.findIdx?_cons, hm, List.findIdx?_succ, hfi]
        | some k =>
          simp only [List.findIdx?_cons, hm, List.findIdx?_succ, hfi,
            Bool.false_eq_true, if_false, Option.map_some', Option.some.injEq]
          push_cast
          ring

theorem columnIndex_inj_upper {t u : String} (ht : upperOnly t) (hu : upperOnly u)
    (hlent : t.data.length ≤ 13) (hlenu : u.data.length ≤ 13)
    (h : columnIndex t = columnIndex u) : t = u := by
  have hlt : lettersOnly t := fun c hc => Or.inl (ht c hc)
  have hlu : lettersOnly u := fun c hc => Or.inl (hu c hc)
  rw [columnIndex_eq_bijValue hlt hlent, columnIndex_eq_bijValue hlu hlenu,
      toUpper_eq_self ht, toUpper_eq_self hu] at h
  have hv : bijValue t = bijValue u := by omega
  unfold bijValue at hv
  have hmap := bijBase26_inj (t.data.map letterDigit) (u.data.map letterDigit)
    (by
      intro d hd
      obtain ⟨c, hc, rfl⟩ := List.mem_map.mp hd
      exact letterDigit_bounds (ht c hc))
    (by
      intro d hd
      obtain ⟨c, hc, rfl⟩ := List.mem_map.mp hd
      exact letterDigit_bounds (hu c hc))
    hv
  have hdata : t.data = u.data := map_letterDigit_inj t.data u.data ht hu hmap
  cases t
  cases u
  exact congrArg String.mk hdata

/-! ### Lemmas about `DataToString` -/

theorem row_foldl_eq (row : List Cell) : ∀ acc : String,
    row.foldl (fun result cell => result ++ sprintv cell ++ "\t") acc =
      acc ++ rowText row := by
  induction row with
  | nil => intro acc; rw [List.foldl_nil, rowText]; simp [String.join]
  | cons cell row ih =>
    intro acc
    rw [List.foldl_cons, ih]
    unfold rowText
    apply String.ext
    simp

theorem data_foldl_eq (data : List (List Cell)) : ∀ acc : String,
    data.foldl
        (fun result row =>
          (row.foldl (fun result cell => result ++ sprintv cell ++ "\t") result) ++ "\n")
        acc =
      acc ++ dataText data := by
  induction data with
  | nil => intro acc; rw [List.foldl_nil, dataText]; simp [String.join]
  | cons row data ih =>
    intro acc
    rw [List.foldl_cons, row_foldl_eq, ih]
    unfold dataText rowText
    apply String.ext
    simp

/-! ### Claim theorems -/

/-- **C1** (amended; `columnIndex`, spec §4.10, §8): on letter strings of at
most 13 characters — where Go's wrapping 64-bit accumulator provably never
overflows — the result is the bijective base-26 value of the uppercased
string made 0-based; uppercasing the input does not change the result
(case-insensitivity); the mapping is injective on canonical uppercase codes
of that length; and the spec's worked examples hold.  From 14 letters on the
accumulator can wrap (see the counterexample), so the exact correspondence
and injectivity stop there. -/
theorem columnIndex_correct (s : String) (h : lettersOnly s)
    (hlen : s.data.length ≤ 13) :
    columnIndex s = (bijValue (toUpper s) : Int) - 1 ∧
    columnIndex (toUpper s) = columnIndex s ∧
    (∀ t u : String, upperOnly t → upperOnly u →
      t.data.length ≤ 13 → u.data.length ≤ 13 →
      columnIndex t = columnIndex u → t = u) ∧
    columnIndex "A" = 0 ∧ columnIndex "B" = 1 ∧ columnIndex "Z" = 25 ∧
    columnIndex "AA" = 26 ∧ columnIndex "BX" = 75 ∧ columnIndex "ZZZ" = 18277 := by
  refine ⟨columnIndex_eq_bijValue h hlen, ?_,
    fun t u ht hu hlent hlenu => columnIndex_inj_upper ht hu hlent hlenu,
    by decide, by decide, by decide, by decide, by decide, by decide⟩
  have hlen2 : (toUpper s).data.length ≤ 13 := by
    unfold toUpper
    rw [string_data_mk, List.length_map]
    exact hlen
  rw [columnIndex_eq_bijValue h hlen,
      columnIndex_eq_bijValue (fun c hc => Or.inl (upperOnly_toUpper h c hc)) hlen2,
      toUpper_idem h]

/-- C1 as stated is refuted at the letter-only 14-character input
`ZZZZZZZZZZZZZZ`: Go's 64-bit accumulator wraps, so `columnIndex` returns a
negative wrapped value instead of the bijective base-26 value minus 1 (and a
function into a finite machine int cannot be injective on all letter
sequences). -/
theorem columnIndex_wrap_counterexample :
    lettersOnly "ZZZZZZZZZZZZZZ" ∧
    columnIndex "ZZZZZZZZZZZZZZ" = -6696602603409169451 ∧
    (bijValue (toUpper "ZZZZZZZZZZZZZZ") : Int) - 1 = 67090373691429037013 ∧
    columnIndex "ZZZZZZZZZZZZZZ" ≠ (bijValue (toUpper "ZZZZZZZZZZZZZZ") : Int) - 1 :=
  ⟨by decide, by decide, by decide, by decide⟩

/-- Witness for C1 at the concrete lowercase input `bx`. -/
theorem columnIndex_correct_witness :
    columnIndex "bx" = (bijValue (toUpper "bx") : Int) - 1 ∧
    columnIndex (toUpper "bx") = columnIndex "bx" :=
  ⟨(columnIndex_correct "bx" (by decide) (by decide)).1,
   (columnIndex_correct "bx" (by decide) (by decide)).2.1⟩

theorem findRowNumber_eq_findIdx (data : List (List Cell)) (column value : String)
    (h : validColumn column) :
    findRowNumber data column value =
      some (match data.findIdx?
              (fun row => rowMatches row (columnIndex column).toNat value) with
            | some k => (k : Int) + 1
            | none => -1) := by
  unfold findRowNumber
  rw [findRowNumberFrom_eq column value (columnIndex_bounds h).1
        (columnIndex_bounds h).2 data 0]
  cases data.findIdx? (fun row => rowMatches row (columnIndex column).toNat value) with
  | none => rfl
  | some k => simp

/-- **C2** (amended; `findRowNumber`, spec §4.9, §8): for a valid letter
column of at most 13 letters (where the wrapped Go index is provably
nonnegative and exact) the scan never panics and returns the 1-based index
of the earliest row whose cell at the column's 0-based index renders exactly
to the value (`rowMatches`), `-1` when the data is empty or no row matches;
rows shorter than index+1 are treated as non-matching.  Longer letter codes
can wrap to a negative index and panic (see the counterexample). -/
theorem findRowNumber_correct (data : List (List Cell)) (column value : String)
    (h : validColumn column) :
    findRowNumber data column value =
      some (match data.findIdx?
              (fun row => rowMatches row (columnIndex column).toNat value) with
            | some k => (k : Int) + 1
            | none => -1) ∧
    (data = [] → findRowNumber data column value = some (-1)) ∧
    ((∀ row ∈ data, rowMatches row (columnIndex column).toNat value = false) →
      findRowNumber data column value = some (-1)) ∧
    (∀ k, data.findIdx?
        (fun row => rowMatches row (columnIndex column).toNat value) = some k →
      findRowNumber data column value = some ((k : Int) + 1)) := by
  have hmain := findRowNumber_eq_findIdx data column value h
  refine ⟨hmain, ?_, ?_, ?_⟩
  · rintro rfl
    exact hmain
  · intro hnone
    rw [hmain, List.findIdx?_eq_none_iff.mpr hnone]
  · intro k hk
    rw [hmain, hk]

/-- C2 as stated is refuted at the letter-only 14-character column
`ZZZZZZZZZZZZZZ`: its wrapped index is negative, the length guard passes on
the nonempty row, and Go panics indexing `row[negative]` — the function does
not return any of the claimed results (modelled by `none`). -/
theorem findRowNumber_wrap_counterexample :
    lettersOnly "ZZZZZZZZZZZZZZ" ∧
    findRowNumber [[Cell.str "x"]] "ZZZZZZZZZZZZZZ" "x" = none :=
  ⟨by decide, by decide⟩

/-- Witness for C2 on concrete two-row data with the match in row 2. -/
theorem findRowNumber_correct_witness :
    findRowNumber [[Cell.str "x"], [Cell.str "y"]] "A" "y" =
      some (match [[Cell.str "x"], [Cell.str "y"]].findIdx?
              (fun row => rowMatches row (columnIndex "A").toNat "y") with
            | some k => (k : Int) + 1
            | none => -1) :=
  (findRowNumber_correct [[Cell.str "x"], [Cell.str "y"]] "A" "y" (by decide)).1

/-- **C10** (amended; implicit safety of `findRowNumber`): for a valid
letter column of at most 13 letters the wrapped index is nonnegative and the
length guard keeps every row access in bounds, so the scan is total — the
embedded function never reaches the panic case (`none`) — on arbitrary
ragged data.  For longer letter codes the wrapped index can be negative,
which defeats the guard and panics (see the counterexample). -/
theorem findRowNumber_no_panic (data : List (List Cell)) (column value : String)
    (h : validColumn column) :
    (findRowNumber data column value).isSome = true := by
  unfold findRowNumber
  rw [findRowNumberFrom_eq column value (columnIndex_bounds h).1
        (columnIndex_bounds h).2 data 0]
  rfl

/-- C10 as stated is refuted at the lowercase letter-only 14-character
column `zzzzzzzzzzzzzz`: it uppercases to the same wrap-negative index, the
guard is defeated on the nonempty first row, and the scan hits the panic
case. -/
theorem findRowNumber_panic_counterexample :
    lettersOnly "zzzzzzzzzzzzzz" ∧
    (findRowNumber [[Cell.str "y"], []] "zzzzzzzzzzzzzz" "y").isSome = false :=
  ⟨by decide, by decide⟩

/-- Witness for C10 on ragged data including an empty row. -/
theorem findRowNumber_no_panic_witness :
    (findRowNumber [[], [Cell.str "x"], []] "b" "z").isSome = true :=
  findRowNumber_no_panic [[], [Cell.str "x"], []] "b" "z" (by decide)

/-- **C9** (`DataToString`, spec §4.8, §8): the function is total by
construction, renders empty input to the empty string, and renders every row
as its cells' renderings each with a trailing tab separator, terminated by a
line break — with no padding across rows of different length. -/
theorem DataToString_correct :
    DataToString [] = "" ∧
    (∀ data : List (List Cell), DataToString data = dataText data) ∧
    (∀ (row : List Cell) (data : List (List Cell)),
      DataToString (row :: data) = rowText row ++ "\n" ++ DataToString data) := by
  have hmain : ∀ data : List (List Cell), DataToString data = dataText data := by
    intro data
    unfold DataToString
    rw [data_foldl_eq data ""]
    exact String.empty_append _
  refine ⟨rfl, hmain, fun row data => ?_⟩
  rw [hmain, hmain]
  unfold dataText rowText
  apply String.ext
  simp

/-- Witness for C9 on concrete ragged data. -/
theorem DataToString_correct_witness :
    DataToString [[Cell.str "a", Cell.int 3], [Cell.bool true]] =
      dataText [[Cell.str "a", Cell.int 3], [Cell.bool true]] :=
  DataToString_correct.2.1 [[Cell.str "a", Cell.int 3], [Cell.bool true]]

/-! ### Lemmas about the client operations -/

theorem validateClientFields_unset {gs : Client}
    (h : gs.spreadsheetID = "" ∨ gs.sheetName = "") :
    ∃ m, validateClientFields gs = .error (.configurationError m) := by
  unfold validateClientFields
  by_cases h1 : gs.spreadsheetID = ""
  · exact ⟨"spreadsheet ID not set", by rw [if_pos h1]⟩
  · exact ⟨"sheet name not set", by rw [if_neg h1, if_pos (h.resolve_left h1)]⟩

theorem getSheetID_unset {gs : Client} (remote : Remote)
    (h : gs.spreadsheetID = "" ∨ gs.sheetName = "") :
    ∃ m, getSheetID gs remote = (.error (.configurationError m), []) := by
  obtain ⟨m, hm⟩ := validateClientFields_unset h
  exact ⟨m, by unfold getSheetID; rw [hm]⟩

theorem getSheetID_ok {gs : Client} {remote : Remote}
    {sheets : List (String × Int)} {sid : Int}
    (hconf : validateClientFields gs = .ok ())
    (hget : remote.getSpreadsheet gs.spreadsheetID = .ok sheets)
    (hfind : findSheet sheets gs.sheetName = some sid) :
    getSheetID gs remote = (.ok sid, [.getSpreadsheet gs.spreadsheetID]) := by
  simp only [getSheetID, hconf, hget, hfind]

theorem AppendData_ok {gs : Client} {remote : Remote} {data : List (List Cell)}
    {range_ : String} (hconf : validateClientFields gs = .ok ())
    (hok : remote.valuesAppend gs.spreadsheetID (gs.sheetName ++ "!" ++ range_) data =
      .ok ()) :
    AppendData gs remote data range_ =
      (.ok (), [.valuesAppend gs.spreadsheetID (gs.sheetName ++ "!" ++ range_) data]) := by
  simp only [AppendData, hconf, hok]

theorem DeleteRow_eq_of_found {gs : Client} {remote : Remote}
    {data : List (List Cell)} {column value : String} {r : Int}
    (hfr : findRowNumber data column value = some r) :
    DeleteRow gs remote data column value =
      if r = -1 then
        some (.error (.notFoundError
          ("unable to find the value " ++ value ++ " in column " ++ column)), [])
      else
        match getSheetID gs remote with
        | (.error e, tr) => some (.error (wrapErr "unable to retrieve sheet ID: " e), tr)
        | (.ok sheetID, tr) =>
          let req : BatchRequest := .deleteDimension sheetID "ROWS" (r - 1) r
          match remote.batchUpdate gs.spreadsheetID [req] with
          | .error msg =>
            some (.error (.remoteError ("unable to delete row from Google Sheets: " ++ msg)),
              tr ++ [.batchUpdate gs.spreadsheetID [req]])
          | .ok _ => some (.ok (), tr ++ [.batchUpdate gs.spreadsheetID [req]]) := by
  unfold DeleteRow
  rw [hfr]

theorem wrapErr_isConfiguration (ctx : String) (e : GSError) :
    (wrapErr ctx e).isConfiguration = e.isConfiguration := by
  cases e <;> rfl

theorem wrapErr_isNotFound (ctx : String) (e : GSError) :
    (wrapErr ctx e).isNotFound = e.isNotFound := by
  cases e <;> rfl

/-- **C3** (amended): with the spreadsheet id or sheet name unset, `ReadData`,
`AppendData`, `InsertRowsAfterPosition` and `InsertRowsAtBeginning` fail with
a `ConfigurationError` and issue no remote call; `DeleteRow` also issues no
remote call but scans the caller's data first: whenever the scan completes
and returns (the `some out` hypothesis — the scan itself can panic on a
wrap-negative column index, in which case no error is returned at all), the
failure is a `NotFoundError` when no row matched and a `ConfigurationError`
only when a match exists. -/
theorem unset_config_rejected (gs : Client) (remote : Remote)
    (h : gs.spreadsheetID = "" ∨ gs.sheetName = "") :
    (∀ r, ∃ m, ReadData gs remote r = (.error (.configurationError m), [])) ∧
    (∀ data a, ∃ m, AppendData gs remote data a =
      (.error (.configurationError m), [])) ∧
    (∀ data p, ∃ m, InsertRowsAfterPosition gs remote data p =
      (.error (.configurationError m), [])) ∧
    (∀ data, ∃ m, InsertRowsAtBeginning gs remote data =
      (.error (.configurationError m), [])) ∧
    (∀ data column value out, DeleteRow gs remote data column value = some out →
      out.2 = [] ∧
      ((findRowNumber data column value = some (-1) ∧
          ∃ m, out.1 = .error (.notFoundError m)) ∨
        (findRowNumber data column value ≠ some (-1) ∧
          ∃ m, out.1 = .error (.configurationError m)))) := by
  obtain ⟨m, hm⟩ := validateClientFields_unset h
  obtain ⟨mg, hmg⟩ := getSheetID_unset remote h
  refine ⟨?_, ?_, ?_, ?_, ?_⟩
  · intro r
    exact ⟨m, by simp only [ReadData, hm]⟩
  · intro data a
    exact ⟨m, by simp only [AppendData, hm]⟩
  · intro data p
    refine ⟨"unable to retrieve sheet ID: " ++ mg, ?_⟩
    simp only [InsertRowsAfterPosition, hmg]
    rfl
  · intro data
    refine ⟨"unable to insert rows at beginning: " ++
      ("unable to retrieve sheet ID: " ++ mg), ?_⟩
    simp only [InsertRowsAtBeginning, InsertRowsAfterPosition, hmg]
    rfl
  · intro data column value out hout
    cases hfr : findRowNumber data column value with
    | none =>
      unfold DeleteRow at hout
      rw [hfr] at hout
      exact absurd hout (by simp)
    | some r =>
      rw [DeleteRow_eq_of_found hfr] at hout
      by_cases hr : r = -1
      · rw [if_pos hr] at hout
        refine ⟨?_, Or.inl ⟨by rw [hr], ?_⟩⟩
        · rw [← Option.some_inj.mp hout]
        · rw [← Option.some_inj.mp hout]
          exact ⟨_, rfl⟩
      · rw [if_neg hr, hmg] at hout
        refine ⟨?_, Or.inr ⟨by simp [hr], ?_⟩⟩
        · rw [← Option.some_inj.mp hout]
        · rw [← Option.some_inj.mp hout]
          exact ⟨"unable to retrieve sheet ID: " ++ mg, rfl⟩

/-- C3 as stated is refuted at a concrete input: with both fields unset,
`DeleteRow` over matchless data fails with a `NotFoundError`, not a
`ConfigurationError` (though it still issues no remote call). -/
theorem unset_config_counterexample :
    DeleteRow blankClient stubRemote [] "A" "x" =
      some (.error (.notFoundError "unable to find the value x in column A"), []) ∧
    GSError.isConfiguration (.notFoundError "unable to find the value x in column A") =
      false :=
  ⟨rfl, rfl⟩

/-- Witness for the amended C3 at a concrete unset client. -/
theorem unset_config_rejected_witness :
    ∃ m, ReadData blankClient stubRemote "A1:B4" =
      (.error (.configurationError m), []) :=
  (unset_config_rejected blankClient stubRemote (Or.inl rfl)).1 "A1:B4"

/-- **C4** (amended; `DeleteRow`, spec §4.7, §8): with a valid column of at
most 13 letters on a configured client, when no row of the caller's data
matches (in particular when the data is empty) the operation fails with a
`NotFoundError` and issues no remote call; when the earliest match sits at
0-based position `k` (1-based `k+1`) it resolves the sheet id and issues one
structural delete of exactly the row at 0-based index `k` (end index `k+1`),
whose modelled effect removes that single row and leaves all others.  At
longer letter codes the row scan can panic instead (see the
counterexample). -/
theorem DeleteRow_correct (gs : Client) (remote : Remote) (data : List (List Cell))
    (column value : String) (hcol : validColumn column)
    (hconf : validateClientFields gs = .ok ())
    (sheets : List (String × Int)) (sid : Int)
    (hget : remote.getSpreadsheet gs.spreadsheetID = .ok sheets)
    (hfind : findSheet sheets gs.sheetName = some sid) :
    (data.findIdx? (fun row => rowMatches row (columnIndex column).toNat value) = none →
      DeleteRow gs remote data column value =
        some (.error (.notFoundError
          ("unable to find the value " ++ value ++ " in column " ++ column)), [])) ∧
    (∀ k, data.findIdx? (fun row => rowMatches row (columnIndex column).toNat value) =
        some k →
      remote.batchUpdate gs.spreadsheetID
          [.deleteDimension sid "ROWS" (k : Int) ((k : Int) + 1)] = .ok () →
      DeleteRow gs remote data column value =
        some (.ok (), [.getSpreadsheet gs.spreadsheetID,
          .batchUpdate gs.spreadsheetID
            [.deleteDimension sid "ROWS" (k : Int) ((k : Int) + 1)]]) ∧
      applyDeleteRows data k (k + 1) = data.eraseIdx k) := by
  have hspec := findRowNumber_eq_findIdx data column value hcol
  constructor
  · intro hnone
    rw [hnone] at hspec
    rw [DeleteRow_eq_of_found hspec, if_pos rfl]
  · intro k hk hbu
    rw [hk] at hspec
    have hspec2 : findRowNumber data column value = some ((k : Int) + 1) := hspec
    constructor
    · rw [DeleteRow_eq_of_found hspec2,
          if_neg (by omega : ¬ ((k : Int) + 1 = -1)),
          getSheetID_ok hconf hget hfind]
      have hk1 : (k : Int) + 1 - 1 = (k : Int) := by ring
      simp only [hk1, hbu]
      rfl
    · rw [applyDeleteRows, List.eraseIdx_eq_take_drop_succ]

/-- C4 as stated is refuted at the letter-only 14-character column
`ZZZZZZZZZZZZZZ` on a configured client with nonempty matchless data: the
scan panics on the wrapped negative index (modelled by `none`), so DeleteRow
neither fails with the claimed `NotFoundError` nor issues a delete. -/
theorem DeleteRow_wrap_counterexample :
    lettersOnly "ZZZZZZZZZZZZZZ" ∧
    DeleteRow demoClient stubRemote [[Cell.str "a"]] "ZZZZZZZZZZZZZZ" "b" = none :=
  ⟨by decide, rfl⟩

/-- Witness for C4 on concrete data with the match in the second row. -/
theorem DeleteRow_correct_witness :
    DeleteRow demoClient stubRemote [[Cell.str "a"], [Cell.str "b"]] "A" "b" =
      some (.ok (), [.getSpreadsheet "spreadsheet-id",
        .batchUpdate "spreadsheet-id"
          [.deleteDimension 7 "ROWS" ((1 : Nat) : Int) (((1 : Nat) : Int) + 1)]]) ∧
    applyDeleteRows [[Cell.str "a"], [Cell.str "b"]] 1 (1 + 1) =
      [[Cell.str "a"], [Cell.str "b"]].eraseIdx 1 :=
  (DeleteRow_correct demoClient stubRemote [[Cell.str "a"], [Cell.str "b"]] "A" "b"
    (by decide) rfl [("Sheet1", 7)] 7 rfl rfl).2 1 (by decide) rfl

/-- The net modelled effect of inserting `data.length` blank rows at 0-based
offset `p` and then writing `data` at that offset: the data lands immediately
after the first `p` rows and the remaining rows follow, unchanged. -/
theorem insertRows_write_eq (sheet data : List (List Cell)) (p : Nat)
    (hp : p ≤ sheet.length) :
    writeRowsAt (applyInsertRows sheet p data.length) p data =
      sheet.take p ++ data ++ sheet.drop p := by
  have h1 : (sheet.take p).length = p := by
    simp [List.length_take, Nat.min_eq_left hp]
  have hA : applyInsertRows sheet p data.length =
      sheet.take p ++ (List.replicate data.length [] ++ sheet.drop p) := by
    unfold applyInsertRows
    exact List.append_assoc _ _ _
  unfold writeRowsAt
  rw [hA, List.take_left' h1, ← List.append_assoc, List.drop_left' (by simp [h1])]

/-- **C5** (amended; `InsertRowsAfterPosition`, spec §4.5): for positions
with `position + len(data) < 2^63` — where Go's wrapping `int64` addition is
exact — the operation on the happy path first resolves the sheet id (the
metadata fetch is the first request), then issues one batch insert of
`len(data)` blank rows at 0-based offsets `position` to
`position + len(data)` with `InheritFromBefore` false, and only on its
success appends the data anchored at column A of row `position`; under the
modelled structural semantics the appended data occupies 1-based rows
`position + 1` onward (0-based offset `position`), immediately after the
caller's row `position`, with the suffix shifted down.  Near `2^63` the
issued end index wraps (see the counterexample). -/
theorem InsertRowsAfterPosition_correct (gs : Client) (remote : Remote)
    (data : List (List Cell)) (position : Int) (hpos : 1 ≤ position)
    (hnw : position + (data.length : Int) < 9223372036854775808)
    (hconf : validateClientFields gs = .ok ())
    (sheets : List (String × Int)) (sid : Int)
    (hget : remote.getSpreadsheet gs.spreadsheetID = .ok sheets)
    (hfind : findSheet sheets gs.sheetName = some sid)
    (hins : remote.batchUpdate gs.spreadsheetID
        [.insertDimension sid "ROWS" position (position + (data.length : Int)) false] =
      .ok ())
    (happ : remote.valuesAppend gs.spreadsheetID
        (gs.sheetName ++ "!" ++ ("A" ++ toString position)) data = .ok ()) :
    InsertRowsAfterPosition gs remote data position =
      (.ok (), [.getSpreadsheet gs.spreadsheetID,
        .batchUpdate gs.spreadsheetID
          [.insertDimension sid "ROWS" position (position + (data.length : Int)) false],
        .valuesAppend gs.spreadsheetID
          (gs.sheetName ++ "!" ++ ("A" ++ toString position)) data]) ∧
    (∀ sheet : List (List Cell), position.toNat ≤ sheet.length →
      writeRowsAt (applyInsertRows sheet position.toNat data.length) position.toNat data =
        sheet.take position.toNat ++ data ++ sheet.drop position.toNat) := by
  constructor
  · have hw : wrap64 (position + (data.length : Int)) = position + (data.length : Int) :=
      wrap64_eq_self (by omega) hnw
    simp only [InsertRowsAfterPosition, getSheetID_ok hconf hget hfind, hw, hins,
      AppendData_ok hconf happ]
    rfl
  · intro sheet hsheet
    exact insertRows_write_eq sheet data position.toNat hsheet

/-- Witness for C5 at a concrete one-row insert after row 2. -/
theorem InsertRowsAfterPosition_correct_witness :
    InsertRowsAfterPosition demoClient stubRemote [[Cell.str "r"]] 2 =
      (.ok (), [.getSpreadsheet "spreadsheet-id",
        .batchUpdate "spreadsheet-id"
          [.insertDimension 7 "ROWS" 2 (2 + (([[Cell.str "r"]].length : Nat) : Int)) false],
        .valuesAppend "spreadsheet-id"
          ("Sheet1" ++ "!" ++ ("A" ++ toString (2 : Int))) [[Cell.str "r"]]]) :=
  (InsertRowsAfterPosition_correct demoClient stubRemote [[Cell.str "r"]] 2
    (by decide) (by decide) rfl [("Sheet1", 7)] 7 rfl rfl rfl rfl).1

/-- C5 as stated is refuted at position `2^63 - 1` (a legal `int64` argument
inside the claim's `position ≥ 1`) with one data row: Go computes the end
index in wrapping `int64` arithmetic, so the issued insert request carries
end index `-2^63`, not the claimed `position + len(data)`. -/
theorem insert_wrap_counterexample :
    InsertRowsAfterPosition demoClient stubRemote [[Cell.str "x"]]
        9223372036854775807 =
      (.ok (), [.getSpreadsheet "spreadsheet-id",
        .batchUpdate "spreadsheet-id"
          [.insertDimension 7 "ROWS" 9223372036854775807
            (-9223372036854775808) false],
        .valuesAppend "spreadsheet-id"
          ("Sheet1" ++ "!" ++ ("A" ++ toString (9223372036854775807 : Int)))
          [[Cell.str "x"]]]) ∧
    (-9223372036854775808 : Int) ≠
      9223372036854775807 + (([[Cell.str "x"]] : List (List Cell)).length : Int) :=
  ⟨rfl, by decide⟩

/-- C6 as stated is refuted at a concrete input: on a configured client an
empty anchor address is not rejected locally — the remote append is issued
with the composed range `Sheet1!` (the trace is nonempty) and, the remote
accepting it, the call even succeeds. -/
theorem append_empty_anchor_counterexample :
    AppendData demoClient stubRemote [[Cell.str "x"]] "" =
      (.ok (), [.valuesAppend "spreadsheet-id" "Sheet1!" [[Cell.str "x"]]]) ∧
    [Request.valuesAppend "spreadsheet-id" "Sheet1!" [[Cell.str "x"]]] ≠
      ([] : List Request) :=
  ⟨rfl, by decide⟩

/-- **C6** (amended): `AppendData` performs no local validation of the anchor
address; with an empty anchor on a configured client it composes the range
`sheetName ++ "!"` and issues the remote append, whose response alone decides
the outcome (a failure surfaces as a `RemoteError`, never as a local
`ConfigurationError`). -/
theorem AppendData_empty_anchor (gs : Client) (remote : Remote)
    (data : List (List Cell)) (hconf : validateClientFields gs = .ok ()) :
    AppendData gs remote data "" =
      (match remote.valuesAppend gs.spreadsheetID (gs.sheetName ++ "!") data with
       | .error msg =>
         .error (.remoteError ("unable to add data to Google Sheets: " ++ msg))
       | .ok _ => .ok (),
       [.valuesAppend gs.spreadsheetID (gs.sheetName ++ "!") data]) := by
  have hr : gs.sheetName ++ "!" ++ "" = gs.sheetName ++ "!" := String.append_empty _
  simp only [AppendData, hconf, hr]
  cases remote.valuesAppend gs.spreadsheetID (gs.sheetName ++ "!") data <;> rfl

/-- Witness for the amended C6 at a concrete configured client. -/
theorem AppendData_empty_anchor_witness :
    AppendData demoClient stubRemote [] "" =
      (match stubRemote.valuesAppend "spreadsheet-id" ("Sheet1" ++ "!") [] with
       | .error msg =>
         .error (.remoteError ("unable to add data to Google Sheets: " ++ msg))
       | .ok _ => .ok (),
       [.valuesAppend "spreadsheet-id" ("Sheet1" ++ "!") []]) :=
  AppendData_empty_anchor demoClient stubRemote [] rfl

/-- **C7** (`AppendData` with empty data, spec §4.4, §8): on a configured
client with a non-empty anchor, when the remote accepts the empty append (the
spec's stated remote behaviour) the call succeeds, the one issued request
carries zero rows, and the modelled write of zero rows leaves every sheet
unchanged wherever the collaborator would land them — a no-op, hence
idempotent. -/
theorem AppendData_empty_data (gs : Client) (remote : Remote) (addr : String)
    (hconf : validateClientFields gs = .ok ()) (_haddr : addr ≠ "")
    (hok : remote.valuesAppend gs.spreadsheetID (gs.sheetName ++ "!" ++ addr) [] =
      .ok ()) :
    AppendData gs remote [] addr =
      (.ok (), [.valuesAppend gs.spreadsheetID (gs.sheetName ++ "!" ++ addr) []]) ∧
    (∀ (sheet : List (List Cell)) (landing : Nat),
      writeRowsAt sheet landing [] = sheet) := by
  constructor
  · exact AppendData_ok hconf hok
  · intro sheet landing
    unfold writeRowsAt
    simp

/-- Witness for C7 at a concrete configured client and anchor `A1`. -/
theorem AppendData_empty_data_witness :
    AppendData demoClient stubRemote [] "A1" =
      (.ok (), [.valuesAppend "spreadsheet-id" ("Sheet1" ++ "!" ++ "A1") []]) ∧
    (∀ (sheet : List (List Cell)) (landing : Nat),
      writeRowsAt sheet landing [] = sheet) :=
  AppendData_empty_data demoClient stubRemote "A1" rfl (by decide) rfl

/-- **C8** (`InsertRowsAtBeginning`, spec §4.6): the convenience wrapper is
equivalent to `InsertRowsAfterPosition` at position 1 — it issues exactly the
same request trace (hence the same remote effect), succeeds exactly when the
latter succeeds, and on failure returns the latter's error wrapped with
context, preserving the error class (all failure modes inherited). -/
theorem InsertRowsAtBeginning_equiv (gs : Client) (remote : Remote)
    (data : List (List Cell)) :
    (InsertRowsAtBeginning gs remote data).2 =
      (InsertRowsAfterPosition gs remote data 1).2 ∧
    ((InsertRowsAtBeginning gs remote data).1 = .ok () ↔
      (InsertRowsAfterPosition gs remote data 1).1 = .ok ()) ∧
    (∀ e, (InsertRowsAfterPosition gs remote data 1).1 = .error e →
      (InsertRowsAtBeginning gs remote data).1 =
        .error (wrapErr "unable to insert rows at beginning: " e) ∧
      (wrapErr "unable to insert rows at beginning: " e).isConfiguration =
        e.isConfiguration ∧
      (wrapErr "unable to insert rows at beginning: " e).isNotFound = e.isNotFound) := by
  unfold InsertRowsAtBeginning
  cases hI : InsertRowsAfterPosition gs remote data 1 with
  | mk res tr =>
    cases res with
    | error e =>
      refine ⟨rfl, by simp, ?_⟩
      intro e2 he2
      cases he2
      exact ⟨rfl, wrapErr_isConfiguration _ _, wrapErr_isNotFound _ _⟩
    | ok u =>
      cases u
      refine ⟨rfl, by simp, ?_⟩
      intro e2 he2
      cases he2

/-- Witness for C8 at a concrete client and data. -/
theorem InsertRowsAtBeginning_equiv_witness :
    (InsertRowsAtBeginning demoClient stubRemote [[Cell.str "x"]]).2 =
      (InsertRowsAfterPosition demoClient stubRemote [[Cell.str "x"]] 1).2 :=
  (InsertRowsAtBeginning_equiv demoClient stubRemote [[Cell.str "x"]]).1

end GoSheets
